import Mathlib

/-!
Verification development for the `NodeLocator` universal node locator of the
internet2 library (`src/lnp/session/node_locator.rs`).

Strings are modelled as `List Char` (the character data of Rust `String`
values).  All build features (`url`, `zmq`, `websockets`) are taken as
enabled, so every variant and every match arm of the source is present.

External collaborators that are not part of the translated source
(`zmqsocket::ApiType`, `LocalAddr`, the `addr` crate internals behind
`InetAddr`, `secp256k1::PublicKey`, `std::net::IpAddr` and the `url` crate)
are modelled by executable definitions that follow their documented
interfaces; each such definition carries a doc comment saying what it stands
for.
-/

/-- Decidable equality for `Except` values, used to evaluate parse results
on concrete inputs. -/
instance {ε α : Type} [DecidableEq ε] [DecidableEq α] :
    DecidableEq (Except ε α) := fun a b =>
  match a, b with
  | .ok x, .ok y =>
      if h : x = y then isTrue (by rw [h])
      else isFalse (fun hh => h (by cases hh; rfl))
  | .error x, .error y =>
      if h : x = y then isTrue (by rw [h])
      else isFalse (fun hh => h (by cases hh; rfl))
  | .ok _, .error _ => isFalse (fun hh => by cases hh)
  | .error _, .ok _ => isFalse (fun hh => by cases hh)

namespace Internet2

/-! ## Character classes and decimal digits -/

/-- Lower-case hexadecimal digit characters. -/
def hexChars : List Char := "0123456789abcdef".data

/-- Characters allowed in the textual form of a raw IP address literal:
dotted IPv4 digits, and the hex digits and colons of IPv6 literals. -/
def ipChars : List Char := "0123456789abcdef.:".data

/-- Characters allowed in the textual form of a network-address (host)
literal: dotted IPv4, unbracketed IPv6 (hex groups separated by colons), or
a bare lower-case onion name. -/
def hostChars : List Char := "abcdefghijklmnopqrstuvwxyz0123456789.:".data

/-- Characters out of which socket paths are built in the URL-safe fragment
of the path grammar. -/
def pathChars : List Char := "abcdefghijklmnopqrstuvwxyz0123456789./_-".data

/-- Decimal digit character for a value below ten. -/
def digitChar (d : Nat) : Char := Char.ofNat (48 + d)

/-- Numeric value of a decimal digit character. -/
def digitVal (c : Char) : Nat := c.toNat - 48

/-- Decimal digit characters. -/
def digitChars : List Char := "0123456789".data

/-- Boolean test for a decimal digit character. -/
def isDigitChar (c : Char) : Bool := decide (c ∈ digitChars)

/-- Fuel-driven digit emitter; the fuel only bounds the recursion depth. -/
def natCharsAux : Nat → Nat → List Char
  | 0, _ => []
  | fuel + 1, n =>
      if n < 10 then [digitChar n]
      else natCharsAux fuel (n / 10) ++ [digitChar (n % 10)]

/-- Decimal representation of a natural number, most significant digit
first; this is the digit stream Rust `Display` for integers produces. -/
def natChars (n : Nat) : List Char := natCharsAux (n + 1) n

/-- Accumulator loop of the decimal parser. -/
def parseNatAux : List Char → Nat → Option Nat
  | [], acc => some acc
  | c :: rest, acc =>
      if isDigitChar c then parseNatAux rest (acc * 10 + digitVal c) else none

/-- Decimal parser over character lists; fails on the empty list or on a
non-digit character. -/
def parseNatChars (s : List Char) : Option Nat :=
  if s.isEmpty then none else parseNatAux s 0

/-! ## External value types: node ids and addresses -/

/-- Validity of the textual form of a compressed secp256k1 public key:
66 lower-case hex characters starting with `02` or `03`. -/
def isKeyHex (s : List Char) : Bool :=
  s.length = 66 && s.all (fun c => decide (c ∈ hexChars)) &&
    (s.take 2 = "02".data || s.take 2 = "03".data)

/-- Modelled from the spec: `secp256k1::PublicKey` (external key library,
not under `src/`): an opaque compressed public key carried by its canonical
lower-case hex rendering; equality is byte equality of that rendering. -/
abbrev PublicKey := {s : List Char // isKeyHex s = true}

/-- Modelled from the spec: the public-key parser collaborator
(`PublicKey::from_str`): accepts exactly the canonical hex renderings. -/
def parsePubkey (s : List Char) : Option PublicKey :=
  if h : isKeyHex s = true then some ⟨s, h⟩ else none

/-- Validity of a raw IP literal in the model: non-empty, over the IPv4 and
IPv6 literal alphabet (digits, hex letters, dots, colons). -/
def isIpLit (s : List Char) : Bool :=
  !s.isEmpty && s.all (fun c => decide (c ∈ ipChars))

/-- Modelled from the spec: `std::net::IpAddr` (external, the raw IP type
used by the queue transports): carried by its dotted textual rendering. -/
abbrev IpAddr := {s : List Char // isIpLit s = true}

/-- Validity of a network-address literal in the model: non-empty, built
from the host alphabet (IPv4 dotted digits, unbracketed IPv6 hex-and-colon
literals, or onion names). -/
def isHostLit (s : List Char) : Bool :=
  !s.isEmpty && s.all (fun c => decide (c ∈ hostChars))

/-- Modelled from the spec: `InetAddr` of the `addr` crate (its `inet`
module is not under `src/`): an opaque IPv4/IPv6/Tor host literal carried
by its textual rendering (IPv6 renders unbracketed, as `Display` does). -/
abbrev InetAddr := {s : List Char // isHostLit s = true}

/-- Modelled from the spec: the raw-IP parser (`str::parse::<IpAddr>`). -/
def parseIpAddr (s : List Char) : Option IpAddr :=
  if h : isIpLit s = true then some ⟨s, h⟩ else none

/-- Modelled from the spec: the network-address parser collaborator
(`str::parse::<InetAddr>`). -/
def parseInetAddr (s : List Char) : Option InetAddr :=
  if h : isHostLit s = true then some ⟨s, h⟩ else none

theorem ipChars_subset_hostChars : ∀ c ∈ ipChars, c ∈ hostChars := by decide

/-- An IP literal is also a host literal. -/
theorem isHostLit_of_isIpLit {s : List Char} (h : isIpLit s = true) :
    isHostLit s = true := by
  simp only [isIpLit, Bool.and_eq_true, List.all_eq_true] at h
  simp only [isHostLit, Bool.and_eq_true, List.all_eq_true]
  refine ⟨h.1, fun c hc => ?_⟩
  have := h.2 c hc
  simp only [decide_eq_true_eq] at this ⊢
  exact ipChars_subset_hostChars c this

/-- Lift of a raw IP into a network-address, `InetAddr::from(ip)`. -/
def InetAddr.fromIp (i : IpAddr) : InetAddr :=
  ⟨i.val, isHostLit_of_isIpLit i.property⟩

/-! ## Queue roles (`zmqsocket::ApiType`) -/

/-- Modelled from the spec: `zmqsocket::ApiType` (the `zmqsocket` module is
not under `src/`): the directional role of a message-queue endpoint —
listening, connecting, request-client, reply-server, subscriber,
service-bus. -/
inductive ApiType where
  | PeerListening
  | PeerConnecting
  | Client
  | Server
  | Subscribe
  | EsbService
deriving DecidableEq

/-- Modelled from the spec: `ApiType::api_name`, the role token used in the
`api` query parameter: listening/connecting emit `p2p`, request-client emits
`rpc` (and reply-server serializes identically to it), subscriber emits
`sub`, service-bus emits `esb`. -/
def ApiType.api_name : ApiType → List Char
  | .PeerListening => "p2p".data
  | .PeerConnecting => "p2p".data
  | .Client => "rpc".data
  | .Server => "rpc".data
  | .Subscribe => "sub".data
  | .EsbService => "esb".data

/-- Role comparison of the source `PartialEq` impl (local fn `api_eq`):
identical roles, or one listening and the other connecting. -/
def api_eq (a b : ApiType) : Bool :=
  decide (a = b) ||
    (decide (a = ApiType.PeerListening) && decide (b = ApiType.PeerConnecting)) ||
    (decide (b = ApiType.PeerListening) && decide (a = ApiType.PeerConnecting))

/-- Canonicalization of a role under the listening/connecting merge. -/
def canonRole : ApiType → ApiType
  | .PeerListening => .PeerConnecting
  | r => r

/-! ## Ports -/

/-- Port numbers are `u16` values. -/
abbrev Port := Fin 65536

/-- Optional `:port` suffix of a serialized authority. -/
def portSuffix : Option Port → List Char
  | none => []
  | some p => ':' :: natChars p.val

/-! ## The locator type -/

/-- Shallow embedding of `enum NodeLocator` with every feature enabled. -/
inductive NodeLocator where
  | Native (pubkey : PublicKey) (inet : InetAddr) (port : Option Port)
  | Udp (pubkey : PublicKey) (ip : IpAddr) (port : Option Port)
  | Posix (path : List Char)
  | ZmqIpc (path : List Char) (api : ApiType)
  | ZmqInproc (name : List Char) (api : ApiType)
  | ZmqTcpEncrypted (pubkey : PublicKey) (api : ApiType) (ip : IpAddr)
      (port : Option Port)
  | ZmqTcpUnencrypted (api : ApiType) (ip : IpAddr) (port : Option Port)
  | Http (pubkey : PublicKey) (inet : InetAddr) (port : Option Port)
  | Websocket (pubkey : PublicKey) (inet : InetAddr) (port : Option Port)
  | Text (pubkey : PublicKey)
deriving DecidableEq

namespace NodeLocator

/-- Embedding of `impl UrlScheme for NodeLocator`. -/
def url_scheme : NodeLocator → List Char
  | .Native .. => "lnp".data
  | .Udp .. => "lnpu".data
  | .Posix .. => "lnp".data
  | .ZmqIpc .. | .ZmqInproc .. => "lnpz".data
  | .ZmqTcpEncrypted .. | .ZmqTcpUnencrypted .. => "lnpz".data
  | .Http .. => "lnph".data
  | .Websocket .. => "lnpws".data
  | .Text .. => "lnpt".data

/-- Embedding of `NodeLocator::to_url_string` (character data of the
produced string). -/
def to_url_string (l : NodeLocator) : List Char :=
  match l with
  | .Native pk inet port =>
      l.url_scheme ++ "://".data ++ pk.val ++ '@' :: inet.val ++ portSuffix port
  | .Udp pk ip port =>
      l.url_scheme ++ "://".data ++ pk.val ++ '@' :: ip.val ++ portSuffix port
  | .Posix path => l.url_scheme ++ ':' :: path
  | .ZmqIpc path zt => l.url_scheme ++ ':' :: path ++ "?api=".data ++ zt.api_name
  | .ZmqInproc name zt =>
      l.url_scheme ++ ":?api=".data ++ zt.api_name ++ '#' :: name
  | .ZmqTcpEncrypted pk zt ip port =>
      l.url_scheme ++ "://".data ++ pk.val ++ '@' :: ip.val ++ portSuffix port ++
        "/?api=".data ++ zt.api_name
  | .ZmqTcpUnencrypted zt ip port =>
      l.url_scheme ++ "://".data ++ ip.val ++ portSuffix port ++
        "/?api=".data ++ zt.api_name
  | .Http pk inet port =>
      l.url_scheme ++ "://".data ++ pk.val ++ '@' :: inet.val ++ portSuffix port
  | .Websocket pk inet port =>
      l.url_scheme ++ "://".data ++ pk.val ++ '@' :: inet.val ++ portSuffix port
  | .Text pk => l.url_scheme ++ "://".data ++ pk.val

/-- Embedding of `NodeLocator::components`. -/
def components (l : NodeLocator) :
    Option PublicKey × Option InetAddr × Option Port × Option (List Char) ×
      Option ApiType :=
  match l with
  | .Native pk inet port => (some pk, some inet, port, none, none)
  | .Udp pk ip port => (some pk, some (InetAddr.fromIp ip), port, none, none)
  | .Posix path => (none, none, none, some path, none)
  | .ZmqIpc path api => (none, none, none, some path, some api)
  | .ZmqInproc name api => (none, none, none, some name, some api)
  | .ZmqTcpEncrypted pk api ip port =>
      (some pk, some (InetAddr.fromIp ip), port, none, some api)
  | .ZmqTcpUnencrypted api ip port =>
      (none, some (InetAddr.fromIp ip), port, none, some api)
  | .Http pk inet port => (some pk, some inet, port, none, none)
  | .Websocket pk inet port => (some pk, some inet, port, none, none)
  | .Text pk => (some pk, none, none, none, none)

/-- Embedding of `NodeLocator::node_id`. -/
def node_id (l : NodeLocator) : Option PublicKey := l.components.1

/-- Embedding of `NodeLocator::inet_addr`. -/
def inet_addr (l : NodeLocator) : Option InetAddr := l.components.2.1

/-- Embedding of `NodeLocator::port`. -/
def port (l : NodeLocator) : Option Port := l.components.2.2.1

/-- Embedding of `NodeLocator::socket_name`. -/
def socket_name (l : NodeLocator) : Option (List Char) := l.components.2.2.2.1

/-- Embedding of `NodeLocator::api_type`. -/
def api_type (l : NodeLocator) : Option ApiType := l.components.2.2.2.2

/-- Embedding of `NodeLocator::with_port`. -/
def with_port (l : NodeLocator) (p : Port) : NodeLocator :=
  match l with
  | .Native a b _ => .Native a b (some p)
  | .Udp a b _ => .Udp a b (some p)
  | .ZmqTcpEncrypted a b c _ => .ZmqTcpEncrypted a b c (some p)
  | .ZmqTcpUnencrypted a b _ => .ZmqTcpUnencrypted a b (some p)
  | .Http a b _ => .Http a b (some p)
  | .Websocket a b _ => .Websocket a b (some p)
  | me => me

end NodeLocator

/-- Embedding of `impl PartialEq for NodeLocator` (the custom equality with
the listening/connecting role merge and a catch-all `false` arm). -/
def locatorEq (x y : NodeLocator) : Bool :=
  match x, y with
  | .Native a1 a2 a3, .Native b1 b2 b3 =>
      decide (a1 = b1) && decide (a2 = b2) && decide (a3 = b3)
  | .Udp a1 a2 a3, .Udp b1 b2 b3 =>
      decide (a1 = b1) && decide (a2 = b2) && decide (a3 = b3)
  | .Websocket a1 a2 a3, .Websocket b1 b2 b3 =>
      decide (a1 = b1) && decide (a2 = b2) && decide (a3 = b3)
  | .ZmqIpc a1 a2, .ZmqIpc b1 b2 => decide (a1 = b1) && api_eq a2 b2
  | .ZmqInproc a1 a2, .ZmqInproc b1 b2 => decide (a1 = b1) && api_eq a2 b2
  | .ZmqTcpUnencrypted a1 a2 a3, .ZmqTcpUnencrypted b1 b2 b3 =>
      api_eq a1 b1 && decide (a2 = b2) && decide (a3 = b3)
  | .ZmqTcpEncrypted a1 a2 a3 a4, .ZmqTcpEncrypted b1 b2 b3 b4 =>
      decide (a1 = b1) && api_eq a2 b2 && decide (a3 = b3) && decide (a4 = b4)
  | .Http a1 a2 a3, .Http b1 b2 b3 =>
      decide (a1 = b1) && decide (a2 = b2) && decide (a3 = b3)
  | .Text p1, .Text p2 => decide (p1 = p2)
  | _, _ => false

/-- Embedding of `impl Hash for NodeLocator`: the hasher is fed exactly the
bytes of `to_url_string`, so the hash is a function of this byte stream. -/
def locatorHashBytes (l : NodeLocator) : List Char := l.to_url_string

/-- Variant tag, used to state that locators of different variants are
never equal. -/
def variantTag : NodeLocator → Nat
  | .Native .. => 0
  | .Udp .. => 1
  | .Posix .. => 2
  | .ZmqIpc .. => 3
  | .ZmqInproc .. => 4
  | .ZmqTcpEncrypted .. => 5
  | .ZmqTcpUnencrypted .. => 6
  | .Http .. => 7
  | .Websocket .. => 8
  | .Text .. => 9

/-- Canonicalization of a locator: the queue-role field is pushed through
`canonRole`, every other field is kept. -/
def canonLocator : NodeLocator → NodeLocator
  | .ZmqIpc path api => .ZmqIpc path (canonRole api)
  | .ZmqInproc name api => .ZmqInproc name (canonRole api)
  | .ZmqTcpEncrypted pk api ip port => .ZmqTcpEncrypted pk (canonRole api) ip port
  | .ZmqTcpUnencrypted api ip port => .ZmqTcpUnencrypted (canonRole api) ip port
  | l => l

/-! ## Errors -/

/-- Embedding of `enum ParseError`. -/
inductive ParseError where
  | UnsupportedForLocalAddr
  | MalformedUrl
  | UnknownUrlScheme (token : List Char)
  | HostRequired
  | InvalidPubkey
  | InvalidHost (token : List Char)
  | HostPresent
  | PortPresent
  | InvalidIp
  | InvalidZmqType (token : List Char)
  | ApiTypeRequired
  | InprocRequireZmqContext
deriving DecidableEq

/-! ## Local addresses -/

/-- Modelled from the spec: `zmqsocket::SocketLocator` (not under `src/`),
the ZMQ socket address with ipc-path, inproc-name and tcp constructors. -/
inductive SocketLocator where
  | Ipc (path : List Char)
  | Inproc (name : List Char)
  | Tcp (ip : IpAddr) (port : Port)
deriving DecidableEq

/-- Modelled from the spec: `LocalAddr` (not under `src/`), the strict
local-only address type with POSIX-socket and ZMQ constructors. -/
inductive LocalAddr where
  | Posix (path : List Char)
  | Zmq (socket : SocketLocator)
deriving DecidableEq

/-- Embedding of `impl TryFrom<NodeLocator> for LocalAddr`. -/
def LocalAddr.try_from (value : NodeLocator) : Except ParseError LocalAddr :=
  match value with
  | .Posix path => .ok (.Posix path)
  | .ZmqIpc path _ => .ok (.Zmq (.Ipc path))
  | .ZmqInproc name _ => .ok (.Zmq (.Inproc name))
  | .ZmqTcpUnencrypted _ ip (some port) => .ok (.Zmq (.Tcp ip port))
  | _ => .error .UnsupportedForLocalAddr

/-! ## Alternate-mode display -/

/-- Optional `?api=<role>` part of the alternate display. -/
def apiPart (l : NodeLocator) : List Char :=
  match l.api_type with
  | some api => "?api=".data ++ api.api_name
  | none => []

/-- Embedding of the alternate branch of `impl Display for NodeLocator`:
`none` models the `expect` panic taken when neither an internet address nor
a socket name is available. -/
def displayAlt (l : NodeLocator) : Option (List Char) :=
  let idPart : List Char :=
    match l.node_id with
    | some pk => pk.val
    | none => []
  match l.inet_addr with
  | some addr =>
      let portPart : List Char :=
        match l.port with
        | some p => ':' :: natChars p.val
        | none => []
      some (idPart ++ '@' :: addr.val ++ portPart ++ apiPart l)
  | none =>
      match l.socket_name with
      | some name => some (idPart ++ name ++ apiPart l)
      | none => none

/-! ## A model of the external `url` crate -/

/-- Model of `url::Url` restricted to the components the locator code
reads: scheme, username, host string, port, path, query and fragment. -/
structure Url where
  scheme : List Char
  username : List Char
  host : Option (List Char)
  port : Option Port
  path : List Char
  query : Option (List Char)
  fragment : Option (List Char)
deriving DecidableEq

/-- Stop characters ending the authority component. -/
def stopAuth (c : Char) : Bool := c = '/' || c = '?' || c = '#'

/-- Stop characters ending the path component. -/
def stopPath (c : Char) : Bool := c = '?' || c = '#'

/-- Longest stop-free initial segment together with the rest of the list. -/
def spanUntil (p : Char → Bool) : List Char → List Char × List Char
  | [] => ([], [])
  | c :: rest =>
      if p c then ([], c :: rest)
      else
        let r := spanUntil p rest
        (c :: r.1, r.2)

/-- Split at the first occurrence of a character; `none` when absent. -/
def breakAt (t : Char) : List Char → Option (List Char × List Char)
  | [] => none
  | c :: rest =>
      if c = t then some ([], rest)
      else (breakAt t rest).map (fun pr => (c :: pr.1, pr.2))

/-- Query and fragment of the part following the path. -/
def parseQF (tail : List Char) : Option (List Char) × Option (List Char) :=
  match tail with
  | '?' :: rest =>
      let qf := spanUntil (fun c => c = '#') rest
      (some qf.1, match qf.2 with | _ :: fr => some fr | [] => none)
  | '#' :: rest => (none, some rest)
  | _ => (none, none)

/-- Scheme characters of the model: lower-case ASCII letters. -/
def schemeOkChar (c : Char) : Bool := 97 ≤ c.toNat && c.toNat ≤ 122

/-- Authority-part parser of the `url` crate model: userinfo, host and
port, followed by path, query and fragment. -/
def parseAfterAuthority (scheme rest2 : List Char) : Option Url :=
  let a := spanUntil stopAuth rest2
  let auth := a.1
  let remainder := a.2
  let userinfo : Option (List Char) × List Char :=
    match breakAt '@' auth with
    | some pr => (some pr.1, pr.2)
    | none => (none, auth)
  let username : List Char :=
    match userinfo.1 with
    | some ui =>
        match breakAt ':' ui with
        | some pr2 => pr2.1
        | none => ui
    | none => []
  let hostport := userinfo.2
  let hp : Option (List Char × Option Port) :=
    match breakAt ':' hostport with
    | some pr =>
        if pr.2.isEmpty then some (pr.1, none)
        else
          match parseNatChars pr.2 with
          | none => none
          | some n => if h : n < 65536 then some (pr.1, some ⟨n, h⟩) else none
    | none => some (hostport, none)
  match hp with
  | none => none
  | some (h, prt) =>
      let pq := spanUntil stopPath remainder
      let qf := parseQF pq.2
      if h.isEmpty then
        if username.isEmpty then
          some ⟨scheme, username, none, prt, pq.1, qf.1, qf.2⟩
        else none
      else some ⟨scheme, username, some h, prt, pq.1, qf.1, qf.2⟩

/-- Model of `Url::from_str`: scheme, then either an authority form
(`scheme://...`) or a path-only form (`scheme:path?query#fragment`). -/
def urlParse (cs : List Char) : Option Url :=
  match breakAt ':' cs with
  | none => none
  | some pr =>
      let scheme := pr.1
      let rest := pr.2
      if scheme.isEmpty then none
      else if !(scheme.all schemeOkChar) then none
      else if rest.take 2 = "//".data then parseAfterAuthority scheme (rest.drop 2)
      else
        let pq := spanUntil stopPath rest
        let qf := parseQF pq.2
        some ⟨scheme, [], none, none, pq.1, qf.1, qf.2⟩

/-! ## Query pairs and the `api` parameter -/

/-- Split a raw query on `&` separators. -/
def splitOnAmp : List Char → List (List Char)
  | [] => [[]]
  | c :: rest =>
      if c = '&' then [] :: splitOnAmp rest
      else
        match splitOnAmp rest with
        | [] => [[c]]
        | g :: gs => (c :: g) :: gs

/-- Key/value of one query pair (`k=v`, or `k` with empty value). -/
def pairOf (s : List Char) : List Char × List Char :=
  match breakAt '=' s with
  | some pr => pr
  | none => (s, [])

/-- First value bound to the key `api`. -/
def findApi : List (List Char) → Option (List Char)
  | [] => none
  | s :: rest =>
      let pr := pairOf s
      if pr.1 = "api".data then some pr.2 else findApi rest

/-- Value of the `api` query parameter of a URL, if any; models
`url.query_pairs().find_map(...)` on the `api` key. -/
def apiQuery (u : Url) : Option (List Char) :=
  match u.query with
  | none => none
  | some q => findApi (splitOnAmp q)

/-- ASCII lower-casing of a token (`str::to_ascii_lowercase`). -/
def toLowerChars (s : List Char) : List Char := s.map Char.toLower

/-! ## URL to locator conversion -/

/-- Queue-role extraction of the `lnpz` arm of `impl TryFrom<Url> for
NodeLocator`: the mandatory `api` query parameter matched
case-insensitively. -/
def zmqRole (u : Url) : Except ParseError ApiType :=
  match apiQuery u with
  | none => .error .ApiTypeRequired
  | some v =>
      let lv := toLowerChars v
      if lv = "p2p".data then .ok .PeerConnecting
      else if lv = "rpc".data then .ok .Client
      else if lv = "sub".data then .ok .Subscribe
      else if lv = "esb".data then .ok .EsbService
      else .error (.InvalidZmqType lv)

/-- Embedding of `impl TryFrom<Url> for NodeLocator`, arm for arm in source
order (pubkey from the username, host string, port; dispatch on scheme).
A network-address parse failure in the `lnp`, `lnph` and `lnpws` arms
propagates through the error conversion from the external address parser
(the `InvalidHost` kind); the model carries the host text as its payload,
the exact message being internal to the external parser. -/
def tryFromUrl (url : Url) : Except ParseError NodeLocator :=
  if url.scheme = "lnp".data then
    match parsePubkey url.username with
    | none => .error .InvalidPubkey
    | some pk =>
        match url.host with
        | none => .error .HostRequired
        | some h =>
            match parseInetAddr h with
            | none => .error (.InvalidHost h)
            | some a => .ok (.Native pk a url.port)
  else if url.scheme = "lnpu".data then
    match parsePubkey url.username with
    | none => .error .InvalidPubkey
    | some pk =>
        match url.host with
        | none => .error .HostRequired
        | some h =>
            match parseIpAddr h with
            | none => .error (.InvalidHost h)
            | some i => .ok (.Udp pk i url.port)
  else if url.scheme = "lnph".data then
    match parsePubkey url.username with
    | none => .error .InvalidPubkey
    | some pk =>
        match url.host with
        | none => .error .HostRequired
        | some h =>
            match parseInetAddr h with
            | none => .error (.InvalidHost h)
            | some a => .ok (.Http pk a url.port)
  else if url.scheme = "lnpws".data then
    match parsePubkey url.username with
    | none => .error .InvalidPubkey
    | some pk =>
        match url.host with
        | none => .error .HostRequired
        | some h =>
            match parseInetAddr h with
            | none => .error (.InvalidHost h)
            | some a => .ok (.Websocket pk a url.port)
  else if url.scheme = "lnpz".data then
    match zmqRole url with
    | .error e => .error e
    | .ok zt =>
        match url.host with
        | some h =>
            match parseIpAddr h with
            | none => .error .InvalidIp
            | some i =>
                match parsePubkey url.username with
                | some pk => .ok (.ZmqTcpEncrypted pk zt i url.port)
                | none =>
                    if url.username.isEmpty then
                      .ok (.ZmqTcpUnencrypted zt i url.port)
                    else .error .InvalidIp
        | none =>
            match parsePubkey url.username with
            | some _ =>
                if url.path.isEmpty then .error .InprocRequireZmqContext
                else .ok (.ZmqIpc url.path zt)
            | none =>
                if url.username.isEmpty then
                  if url.path.isEmpty then .error .InprocRequireZmqContext
                  else .ok (.ZmqIpc url.path zt)
                else .error .InvalidIp
  else if url.scheme = "lnpt".data then
    match parsePubkey url.username with
    | some _ => .error .HostPresent
    | none =>
        match url.port with
        | some _ => .error .PortPresent
        | none =>
            match url.host with
            | some h =>
                match parsePubkey h with
                | some pk => .ok (.Text pk)
                | none => .error .InvalidPubkey
            | none => .error .InvalidPubkey
  else .error (.UnknownUrlScheme url.scheme)

/-! ## String to locator parsing (`FromStr`) -/

/-- Scheme markers checked by `NodeLocator::from_str` before prefixing. -/
def knownSchemes : List (List Char) :=
  ["lnp:".data, "lnpu:".data, "lnpz:".data, "lnpws:".data, "lnpt:".data,
    "lnph:".data]

/-- Normalization step of `from_str`: bare strings get an `lnp://` front. -/
def normalizeInput (s : List Char) : List Char :=
  if knownSchemes.any (fun p => p.isPrefixOf s) then s
  else "lnp://".data ++ s

/-- URL-parse a character string and convert, mapping a URL parse failure
to `MalformedUrl`. -/
def parseUrlChars (s : List Char) : Except ParseError NodeLocator :=
  match urlParse s with
  | none => .error .MalformedUrl
  | some u => tryFromUrl u

/-- Embedding of `impl FromStr for NodeLocator`. -/
def from_str (s : List Char) : Except ParseError NodeLocator :=
  parseUrlChars (normalizeInput s)

/-- Boolean round-trip check: serialize, reparse, compare under the
locator equality. -/
def reparses (v : NodeLocator) : Bool :=
  match from_str v.to_url_string with
  | .ok w => locatorEq v w
  | .error _ => false



/-! ## Decimal digit lemmas -/

theorem digitChar_isDigit {d : Nat} (h : d < 10) :
    isDigitChar (digitChar d) = true := by
  interval_cases d <;> decide

theorem digitVal_digitChar {d : Nat} (h : d < 10) :
    digitVal (digitChar d) = d := by
  interval_cases d <;> decide

theorem parseNatAux_append (a b : List Char) (acc : Nat) :
    parseNatAux (a ++ b) acc =
      (parseNatAux a acc).bind (fun m => parseNatAux b m) := by
  induction a generalizing acc with
  | nil => simp [parseNatAux]
  | cons c rest ih =>
      simp only [List.cons_append, parseNatAux]
      by_cases hc : isDigitChar c
      · simp [hc, ih]
      · simp [hc]

theorem natCharsAux_parse :
    ∀ fuel n, n < fuel →
      (∀ acc, parseNatAux (natCharsAux fuel n) acc =
        some (acc * 10 ^ (natCharsAux fuel n).length + n)) := by
  intro fuel
  induction fuel with
  | zero => intro n h; omega
  | succ fuel ih =>
      intro n h acc
      by_cases h10 : n < 10
      · simp only [natCharsAux, if_pos h10, parseNatAux,
          digitChar_isDigit h10, if_true, digitVal_digitChar h10]
        simp
      · have hdiv : n / 10 < fuel := by
          have h1 : n / 10 < n := Nat.div_lt_self (by omega) (by omega)
          omega
        simp only [natCharsAux, if_neg h10]
        rw [parseNatAux_append]
        rw [ih (n / 10) hdiv acc]
        have hm : n % 10 < 10 := Nat.mod_lt _ (by omega)
        simp only [Option.some_bind, parseNatAux, digitChar_isDigit hm,
          if_true, digitVal_digitChar hm]
        have hlen : (natCharsAux fuel (n / 10) ++ [digitChar (n % 10)]).length
            = (natCharsAux fuel (n / 10)).length + 1 := by simp
        rw [hlen]
        have hdm : n / 10 * 10 + n % 10 = n := by omega
        congr 1
        rw [pow_succ]
        calc (acc * 10 ^ (natCharsAux fuel (n / 10)).length + n / 10) * 10 +
              n % 10
            = acc * (10 ^ (natCharsAux fuel (n / 10)).length * 10) +
              (n / 10 * 10 + n % 10) := by ring
          _ = acc * (10 ^ (natCharsAux fuel (n / 10)).length * 10) + n := by
              rw [hdm]

theorem natCharsAux_ne_nil : ∀ fuel n, n < fuel → natCharsAux fuel n ≠ [] := by
  intro fuel
  cases fuel with
  | zero => intro n h; omega
  | succ fuel =>
      intro n _
      by_cases h10 : n < 10
      · simp [natCharsAux, if_pos h10]
      · simp [natCharsAux, if_neg h10]

theorem natCharsAux_digits :
    ∀ fuel n, n < fuel → ∀ c ∈ natCharsAux fuel n, isDigitChar c = true := by
  intro fuel
  induction fuel with
  | zero => intro n h; omega
  | succ fuel ih =>
      intro n h c hc
      by_cases h10 : n < 10
      · simp only [natCharsAux, if_pos h10, List.mem_singleton] at hc
        rw [hc]; exact digitChar_isDigit h10
      · have hdiv : n / 10 < fuel := by
          have h1 : n / 10 < n := Nat.div_lt_self (by omega) (by omega)
          omega
        simp only [natCharsAux, if_neg h10, List.mem_append,
          List.mem_singleton] at hc
        rcases hc with hc | hc
        · exact ih (n / 10) hdiv c hc
        · rw [hc]; exact digitChar_isDigit (Nat.mod_lt _ (by omega))

theorem parseNat_natChars (n : Nat) : parseNatChars (natChars n) = some n := by
  have hne := natCharsAux_ne_nil (n + 1) n (by omega)
  have hp := natCharsAux_parse (n + 1) n (by omega) 0
  simp only [natChars, parseNatChars]
  rw [if_neg (by simpa [List.isEmpty_iff] using hne)]
  rw [hp]; simp

theorem natChars_ne_nil (n : Nat) : natChars n ≠ [] :=
  natCharsAux_ne_nil (n + 1) n (by omega)

theorem natChars_digits (n : Nat) : ∀ c ∈ natChars n, isDigitChar c = true :=
  natCharsAux_digits (n + 1) n (by omega)

/-! ## Splitter lemmas -/

theorem spanUntil_all {p : Char → Bool} {a : List Char}
    (ha : ∀ c ∈ a, p c = false) : spanUntil p a = (a, []) := by
  induction a with
  | nil => rfl
  | cons c rest ih =>
      have hc := ha c (by simp)
      simp only [spanUntil, hc, Bool.false_eq_true, if_false]
      rw [ih (fun x hx => ha x (by simp [hx]))]

theorem spanUntil_append {p : Char → Bool} {a : List Char} (b : List Char)
    (ha : ∀ c ∈ a, p c = false) :
    spanUntil p (a ++ b) = (a ++ (spanUntil p b).1, (spanUntil p b).2) := by
  induction a with
  | nil => simp
  | cons c rest ih =>
      have hc := ha c (by simp)
      simp only [List.cons_append, spanUntil, hc, Bool.false_eq_true, if_false,
        List.append_eq]
      rw [ih (fun x hx => ha x (by simp [hx]))]

theorem spanUntil_stop {p : Char → Bool} {c : Char} (cs : List Char)
    (hc : p c = true) : spanUntil p (c :: cs) = ([], c :: cs) := by
  simp [spanUntil, hc]

theorem breakAt_not_mem {t : Char} {a : List Char} (h : t ∉ a) :
    breakAt t a = none := by
  induction a with
  | nil => rfl
  | cons c rest ih =>
      have hc : ¬ c = t := fun e => h (by simp [e])
      simp only [breakAt, if_neg hc]
      rw [ih (fun hm => h (by simp [hm]))]
      rfl

theorem breakAt_first {t : Char} {a : List Char} (b : List Char) (h : t ∉ a) :
    breakAt t (a ++ t :: b) = some (a, b) := by
  induction a with
  | nil => simp [breakAt]
  | cons c rest ih =>
      have hc : ¬ c = t := fun e => h (by simp [e])
      simp only [List.cons_append, breakAt, if_neg hc, List.append_eq]
      rw [ih (fun hm => h (by simp [hm]))]
      rfl

/-! ## Character-class facts used by the URL splitter -/

/-- Characters that can sit inside the userinfo/host part of an authority
without disturbing the splitter. -/
def authSafe (c : Char) : Bool :=
  !stopAuth c && !(c = '@') && !(c = ':')

theorem authSafe_stopAuth {c : Char} (h : authSafe c = true) :
    stopAuth c = false := by
  simp only [authSafe, Bool.and_eq_true, Bool.not_eq_true'] at h
  exact h.1.1

theorem authSafe_at {c : Char} (h : authSafe c = true) : c ≠ '@' := by
  simp only [authSafe, Bool.and_eq_true, Bool.not_eq_true', decide_eq_false_iff_not]
    at h
  exact h.1.2

theorem authSafe_colon {c : Char} (h : authSafe c = true) : c ≠ ':' := by
  simp only [authSafe, Bool.and_eq_true, Bool.not_eq_true', decide_eq_false_iff_not]
    at h
  exact h.2

theorem hex_authSafe : ∀ c ∈ hexChars, authSafe c = true := by decide

theorem host_authSafe_nocolon :
    ∀ c ∈ hostChars, c ≠ ':' → authSafe c = true := by decide

theorem digit_authSafe {c : Char} (h : isDigitChar c = true) :
    authSafe c = true := by
  simp only [isDigitChar, decide_eq_true_eq] at h
  fin_cases h <;> decide

theorem key_authSafe (pk : PublicKey) : ∀ c ∈ pk.val, authSafe c = true := by
  intro c hc
  have hk := pk.property
  simp only [isKeyHex, Bool.and_eq_true, List.all_eq_true] at hk
  have := hk.1.2 c hc
  simp only [decide_eq_true_eq] at this
  exact hex_authSafe c this

theorem key_ne_nil (pk : PublicKey) : pk.val ≠ [] := by
  have hk := pk.property
  simp only [isKeyHex, Bool.and_eq_true] at hk
  have hlen := hk.1.1
  simp only [decide_eq_true_eq] at hlen
  intro hnil
  rw [hnil] at hlen
  simp at hlen

theorem inet_authSafe (a : InetAddr) (hcol : ':' ∉ a.val) :
    ∀ c ∈ a.val, authSafe c = true := by
  intro c hc
  have hk := a.property
  simp only [isHostLit, Bool.and_eq_true, List.all_eq_true] at hk
  have := hk.2 c hc
  simp only [decide_eq_true_eq] at this
  exact host_authSafe_nocolon c this (fun he => hcol (he ▸ hc))

theorem inet_ne_nil (a : InetAddr) : a.val ≠ [] := by
  have hk := a.property
  simp only [isHostLit, Bool.and_eq_true] at hk
  have := hk.1
  simpa [List.isEmpty_iff] using this

theorem ip_authSafe (i : IpAddr) (hcol : ':' ∉ i.val) :
    ∀ c ∈ i.val, authSafe c = true :=
  fun c hc => inet_authSafe (InetAddr.fromIp i) hcol c hc

theorem ip_ne_nil (i : IpAddr) : i.val ≠ [] :=
  inet_ne_nil (InetAddr.fromIp i)

/-- Every character of a serialized host-and-port block is authority safe
except the port colon, handled separately. -/
theorem portSuffix_digits (p : Port) :
    ∀ c ∈ natChars p.val, authSafe c = true :=
  fun c hc => digit_authSafe (natChars_digits p.val c hc)

theorem spanUntil_cons_false {p : Char → Bool} {c : Char} (cs : List Char)
    (h : p c = false) :
    spanUntil p (c :: cs) = (c :: (spanUntil p cs).1, (spanUntil p cs).2) := by
  simp [spanUntil, h]

/-! ## URL parser characterization on serialized shapes -/

theorem urlParse_scheme_auth (sch rest2 : List Char)
    (hne : sch ≠ []) (hok : sch.all schemeOkChar = true) (hcol : ':' ∉ sch) :
    urlParse (sch ++ ':' :: '/' :: '/' :: rest2) = parseAfterAuthority sch rest2 := by
  simp only [urlParse, breakAt_first _ hcol]
  rw [if_neg (by simpa [List.isEmpty_iff] using hne)]
  rw [hok]
  simp [List.take]

theorem urlParse_plain (sch rest : List Char)
    (hne : sch ≠ []) (hok : sch.all schemeOkChar = true) (hcol : ':' ∉ sch)
    (hrest : rest.take 2 ≠ "//".data) :
    urlParse (sch ++ ':' :: rest) =
      some ⟨sch, [], none, none, (spanUntil stopPath rest).1,
        (parseQF (spanUntil stopPath rest).2).1,
        (parseQF (spanUntil stopPath rest).2).2⟩ := by
  simp only [urlParse, breakAt_first _ hcol]
  rw [if_neg (by simpa [List.isEmpty_iff] using hne)]
  rw [hok]
  simp only [Bool.not_true, Bool.false_eq_true, if_false]
  rw [if_neg hrest]

/-- The authority splitter on a serialized `host ++ port` block. -/
theorem hostPortSplit (host : List Char) (prt : Option Port)
    (hhost : ∀ c ∈ host, authSafe c = true) :
    (match breakAt ':' (host ++ portSuffix prt) with
      | some pr =>
          if pr.2.isEmpty then some (pr.1, (none : Option Port))
          else
            match parseNatChars pr.2 with
            | none => none
            | some n => if h : n < 65536 then some (pr.1, some ⟨n, h⟩) else none
      | none => some (host ++ portSuffix prt, none)) = some (host, prt) := by
  have hcol : ':' ∉ host := fun hm => authSafe_colon (hhost _ hm) rfl
  cases prt with
  | none =>
      simp only [portSuffix, List.append_nil]
      rw [breakAt_not_mem hcol]
  | some p =>
      simp only [portSuffix]
      rw [breakAt_first _ hcol]
      have hne := natChars_ne_nil p.val
      simp only [List.isEmpty_iff]
      rw [if_neg hne, parseNat_natChars]
      simp only [p.isLt, dif_pos]

theorem parseAfterAuthority_user (sch user host : List Char) (prt : Option Port)
    (tail : List Char)
    (huser : ∀ c ∈ user, authSafe c = true)
    (hhost : ∀ c ∈ host, authSafe c = true)
    (hhost_ne : host ≠ [])
    (htail : spanUntil stopAuth tail = ([], tail)) :
    parseAfterAuthority sch (user ++ '@' :: (host ++ (portSuffix prt ++ tail))) =
      some ⟨sch, user, some host, prt, (spanUntil stopPath tail).1,
        (parseQF (spanUntil stopPath tail).2).1,
        (parseQF (spanUntil stopPath tail).2).2⟩ := by
  have huser2 : ∀ c ∈ user, stopAuth c = false :=
    fun c hc => authSafe_stopAuth (huser c hc)
  have hhost2 : ∀ c ∈ host, stopAuth c = false :=
    fun c hc => authSafe_stopAuth (hhost c hc)
  have hat : '@' ∉ user := fun hm => authSafe_at (huser _ hm) rfl
  have hucol : ':' ∉ user := fun hm => authSafe_colon (huser _ hm) rfl
  have hspanPort : spanUntil stopAuth (portSuffix prt ++ tail) =
      ((portSuffix prt ++ (spanUntil stopAuth tail).1),
        (spanUntil stopAuth tail).2) := by
    cases prt with
    | none => simp [portSuffix]
    | some p =>
        simp only [portSuffix, List.cons_append]
        rw [spanUntil_cons_false _ (by decide)]
        rw [spanUntil_append _
          (fun c hc => authSafe_stopAuth (digit_authSafe (natChars_digits p.val c hc)))]
  have hspan : spanUntil stopAuth (user ++ '@' :: (host ++ (portSuffix prt ++ tail)))
      = (user ++ '@' :: (host ++ portSuffix prt), tail) := by
    rw [spanUntil_append _ huser2]
    rw [spanUntil_cons_false _ (by decide)]
    rw [spanUntil_append _ hhost2]
    rw [hspanPort, htail]
    simp
  simp only [parseAfterAuthority]
  rw [hspan]
  rw [breakAt_first _ hat]
  simp only
  rw [breakAt_not_mem hucol]
  simp only
  rw [hostPortSplit host prt hhost]
  simp only [List.isEmpty_iff]
  rw [if_neg hhost_ne]

theorem parseAfterAuthority_nouser (sch host : List Char) (prt : Option Port)
    (tail : List Char)
    (hhost : ∀ c ∈ host, authSafe c = true)
    (hhost_ne : host ≠ [])
    (htail : spanUntil stopAuth tail = ([], tail)) :
    parseAfterAuthority sch (host ++ (portSuffix prt ++ tail)) =
      some ⟨sch, [], some host, prt, (spanUntil stopPath tail).1,
        (parseQF (spanUntil stopPath tail).2).1,
        (parseQF (spanUntil stopPath tail).2).2⟩ := by
  have hhost2 : ∀ c ∈ host, stopAuth c = false :=
    fun c hc => authSafe_stopAuth (hhost c hc)
  have hat : '@' ∉ host ++ portSuffix prt := by
    intro hm
    rcases List.mem_append.mp hm with hm | hm
    · exact authSafe_at (hhost _ hm) rfl
    · cases prt with
      | none => simp [portSuffix] at hm
      | some p =>
          simp only [portSuffix, List.mem_cons] at hm
          rcases hm with hm | hm
          · exact absurd hm.symm (by decide)
          · exact authSafe_at (digit_authSafe (natChars_digits p.val _ hm)) rfl
  have hspanPort : spanUntil stopAuth (portSuffix prt ++ tail) =
      ((portSuffix prt ++ (spanUntil stopAuth tail).1),
        (spanUntil stopAuth tail).2) := by
    cases prt with
    | none => simp [portSuffix]
    | some p =>
        simp only [portSuffix, List.cons_append]
        rw [spanUntil_cons_false _ (by decide)]
        rw [spanUntil_append _
          (fun c hc => authSafe_stopAuth (digit_authSafe (natChars_digits p.val c hc)))]
  have hspan : spanUntil stopAuth (host ++ (portSuffix prt ++ tail))
      = (host ++ portSuffix prt, tail) := by
    rw [spanUntil_append _ hhost2, hspanPort, htail]
    simp
  simp only [parseAfterAuthority]
  rw [hspan]
  rw [breakAt_not_mem hat]
  simp only
  rw [hostPortSplit host prt hhost]
  simp only [List.isEmpty_iff]
  rw [if_neg hhost_ne]

/-! ## Parser facts for canonical renderings -/

theorem parsePubkey_val (pk : PublicKey) : parsePubkey pk.val = some pk := by
  unfold parsePubkey
  rw [dif_pos pk.property]

theorem parseInetAddr_val (a : InetAddr) : parseInetAddr a.val = some a := by
  unfold parseInetAddr
  rw [dif_pos a.property]

theorem parseIpAddr_val (i : IpAddr) : parseIpAddr i.val = some i := by
  unfold parseIpAddr
  rw [dif_pos i.property]

theorem normalizeInput_lnp (rest : List Char) :
    normalizeInput ("lnp".data ++ ':' :: rest) = "lnp".data ++ ':' :: rest := by
  simp [normalizeInput, knownSchemes, List.isPrefixOf]

theorem normalizeInput_lnpu (rest : List Char) :
    normalizeInput ("lnpu".data ++ ':' :: rest) = "lnpu".data ++ ':' :: rest := by
  simp [normalizeInput, knownSchemes, List.isPrefixOf]

theorem normalizeInput_lnpz (rest : List Char) :
    normalizeInput ("lnpz".data ++ ':' :: rest) = "lnpz".data ++ ':' :: rest := by
  simp [normalizeInput, knownSchemes, List.isPrefixOf]

theorem normalizeInput_lnpws (rest : List Char) :
    normalizeInput ("lnpws".data ++ ':' :: rest) = "lnpws".data ++ ':' :: rest := by
  simp [normalizeInput, knownSchemes, List.isPrefixOf]

theorem normalizeInput_lnpt (rest : List Char) :
    normalizeInput ("lnpt".data ++ ':' :: rest) = "lnpt".data ++ ':' :: rest := by
  simp [normalizeInput, knownSchemes, List.isPrefixOf]

theorem normalizeInput_lnph (rest : List Char) :
    normalizeInput ("lnph".data ++ ':' :: rest) = "lnph".data ++ ':' :: rest := by
  simp [normalizeInput, knownSchemes, List.isPrefixOf]

/-! ## Round trips of the serialized variants -/

theorem from_str_native (pk : PublicKey) (inet : InetAddr) (prt : Option Port)
    (hcol : ':' ∉ inet.val) :
    from_str (NodeLocator.to_url_string (.Native pk inet prt)) =
      .ok (.Native pk inet prt) := by
  have hshape : NodeLocator.to_url_string (.Native pk inet prt) =
      "lnp".data ++ ':' :: '/' :: '/' ::
        (pk.val ++ '@' :: (inet.val ++ (portSuffix prt ++ ([] : List Char)))) := by
    simp [NodeLocator.to_url_string, NodeLocator.url_scheme, List.append_assoc]
  rw [from_str, hshape, normalizeInput_lnp, parseUrlChars]
  rw [urlParse_scheme_auth _ _ (by decide) (by decide) (by decide)]
  rw [parseAfterAuthority_user _ _ _ _ [] (key_authSafe pk) (inet_authSafe inet hcol)
    (inet_ne_nil inet) rfl]
  simp only [spanUntil, parseQF]
  unfold tryFromUrl
  rw [if_pos rfl]
  simp only [parsePubkey_val, parseInetAddr_val]

/-! ## Helper facts for the queue variants -/

/-- Role obtained back when a serialized role token is reparsed: `p2p`
decodes to connecting, `rpc` to request-client, `sub` and `esb` to
themselves. -/
def roleRT : ApiType → ApiType
  | .PeerListening => .PeerConnecting
  | .PeerConnecting => .PeerConnecting
  | .Client => .Client
  | .Server => .Client
  | .Subscribe => .Subscribe
  | .EsbService => .EsbService

theorem zmqRole_mk_apiname (sch user : List Char) (host : Option (List Char))
    (prt : Option Port) (path : List Char) (frag : Option (List Char))
    (zt : ApiType) :
    zmqRole ⟨sch, user, host, prt, path,
      some ('a' :: 'p' :: 'i' :: '=' :: zt.api_name), frag⟩ = .ok (roleRT zt) := by
  cases zt <;> rfl

theorem apiName_noHash (zt : ApiType) :
    ∀ c ∈ zt.api_name, (fun c => decide (c = '#')) c = false := by
  cases zt <;> decide

theorem parsePubkey_nil : parsePubkey ([] : List Char) = none := rfl

theorem pathChars_stopPath : ∀ c ∈ pathChars, stopPath c = false := by decide

theorem take2_append_ne (path : List Char) (c : Char) (cs : List Char)
    (hne : path ≠ []) (h2 : path.take 2 ≠ "//".data) (hc : c ≠ '/') :
    (path ++ c :: cs).take 2 ≠ "//".data := by
  cases path with
  | nil => exact absurd rfl hne
  | cons a t =>
      cases t with
      | nil =>
          simp only [List.cons_append, List.nil_append, List.take]
          intro h
          injection h with h4 h5
          injection h5 with h6 h7
          exact hc h6
      | cons b t2 =>
          simpa using h2

theorem from_str_udp (pk : PublicKey) (ip : IpAddr) (prt : Option Port)
    (hcol : ':' ∉ ip.val) :
    from_str (NodeLocator.to_url_string (.Udp pk ip prt)) =
      .ok (.Udp pk ip prt) := by
  have hshape : NodeLocator.to_url_string (.Udp pk ip prt) =
      "lnpu".data ++ ':' :: '/' :: '/' ::
        (pk.val ++ '@' :: (ip.val ++ (portSuffix prt ++ ([] : List Char)))) := by
    simp [NodeLocator.to_url_string, NodeLocator.url_scheme, List.append_assoc]
  rw [from_str, hshape, normalizeInput_lnpu, parseUrlChars]
  rw [urlParse_scheme_auth _ _ (by decide) (by decide) (by decide)]
  rw [parseAfterAuthority_user _ _ _ _ [] (key_authSafe pk) (ip_authSafe ip hcol)
    (ip_ne_nil ip) rfl]
  simp only [spanUntil, parseQF]
  unfold tryFromUrl
  rw [if_neg (by simp), if_pos rfl]
  simp only [parsePubkey_val, parseIpAddr_val]

theorem from_str_http (pk : PublicKey) (inet : InetAddr) (prt : Option Port)
    (hcol : ':' ∉ inet.val) :
    from_str (NodeLocator.to_url_string (.Http pk inet prt)) =
      .ok (.Http pk inet prt) := by
  have hshape : NodeLocator.to_url_string (.Http pk inet prt) =
      "lnph".data ++ ':' :: '/' :: '/' ::
        (pk.val ++ '@' :: (inet.val ++ (portSuffix prt ++ ([] : List Char)))) := by
    simp [NodeLocator.to_url_string, NodeLocator.url_scheme, List.append_assoc]
  rw [from_str, hshape, normalizeInput_lnph, parseUrlChars]
  rw [urlParse_scheme_auth _ _ (by decide) (by decide) (by decide)]
  rw [parseAfterAuthority_user _ _ _ _ [] (key_authSafe pk) (inet_authSafe inet hcol)
    (inet_ne_nil inet) rfl]
  simp only [spanUntil, parseQF]
  unfold tryFromUrl
  rw [if_neg (by simp), if_neg (by simp), if_pos rfl]
  simp only [parsePubkey_val, parseInetAddr_val]

theorem from_str_websocket (pk : PublicKey) (inet : InetAddr)
    (prt : Option Port) (hcol : ':' ∉ inet.val) :
    from_str (NodeLocator.to_url_string (.Websocket pk inet prt)) =
      .ok (.Websocket pk inet prt) := by
  have hshape : NodeLocator.to_url_string (.Websocket pk inet prt) =
      "lnpws".data ++ ':' :: '/' :: '/' ::
        (pk.val ++ '@' :: (inet.val ++ (portSuffix prt ++ ([] : List Char)))) := by
    simp [NodeLocator.to_url_string, NodeLocator.url_scheme, List.append_assoc]
  rw [from_str, hshape, normalizeInput_lnpws, parseUrlChars]
  rw [urlParse_scheme_auth _ _ (by decide) (by decide) (by decide)]
  rw [parseAfterAuthority_user _ _ _ _ [] (key_authSafe pk) (inet_authSafe inet hcol)
    (inet_ne_nil inet) rfl]
  simp only [spanUntil, parseQF]
  unfold tryFromUrl
  rw [if_neg (by simp), if_neg (by simp), if_neg (by simp), if_pos rfl]
  simp only [parsePubkey_val, parseInetAddr_val]

theorem from_str_text (pk : PublicKey) :
    from_str (NodeLocator.to_url_string (.Text pk)) = .ok (.Text pk) := by
  have hshape : NodeLocator.to_url_string (.Text pk) =
      "lnpt".data ++ ':' :: '/' :: '/' ::
        (pk.val ++ (portSuffix (none : Option Port) ++ ([] : List Char))) := by
    simp [NodeLocator.to_url_string, NodeLocator.url_scheme, portSuffix]
  rw [from_str, hshape, normalizeInput_lnpt, parseUrlChars]
  rw [urlParse_scheme_auth _ _ (by decide) (by decide) (by decide)]
  rw [parseAfterAuthority_nouser _ _ _ [] (key_authSafe pk) (key_ne_nil pk) rfl]
  simp only [spanUntil, parseQF]
  unfold tryFromUrl
  rw [if_neg (by simp), if_neg (by simp), if_neg (by simp),
    if_neg (by simp), if_neg (by simp), if_pos rfl]
  simp only [parsePubkey_nil, parsePubkey_val]

theorem parseQF_api (zt : ApiType) :
    parseQF ('?' :: 'a' :: 'p' :: 'i' :: '=' :: zt.api_name) =
      (some ('a' :: 'p' :: 'i' :: '=' :: zt.api_name), none) := by
  cases zt <;> rfl

theorem spanPath_api (zt : ApiType) :
    spanUntil stopPath ('/' :: '?' :: 'a' :: 'p' :: 'i' :: '=' :: zt.api_name) =
      (['/'], '?' :: 'a' :: 'p' :: 'i' :: '=' :: zt.api_name) := by
  cases zt <;> rfl

theorem spanAuth_api (zt : ApiType) :
    spanUntil stopAuth ('/' :: '?' :: 'a' :: 'p' :: 'i' :: '=' :: zt.api_name) =
      ([], '/' :: '?' :: 'a' :: 'p' :: 'i' :: '=' :: zt.api_name) := by
  cases zt <;> rfl

theorem from_str_zmq_enc (pk : PublicKey) (zt : ApiType) (ip : IpAddr)
    (prt : Option Port) (hcol : ':' ∉ ip.val) :
    from_str (NodeLocator.to_url_string (.ZmqTcpEncrypted pk zt ip prt)) =
      .ok (.ZmqTcpEncrypted pk (roleRT zt) ip prt) := by
  have hshape : NodeLocator.to_url_string (.ZmqTcpEncrypted pk zt ip prt) =
      "lnpz".data ++ ':' :: '/' :: '/' ::
        (pk.val ++ '@' :: (ip.val ++ (portSuffix prt ++
          ('/' :: '?' :: 'a' :: 'p' :: 'i' :: '=' :: zt.api_name)))) := by
    simp [NodeLocator.to_url_string, NodeLocator.url_scheme, List.append_assoc]
  rw [from_str, hshape, normalizeInput_lnpz, parseUrlChars]
  rw [urlParse_scheme_auth _ _ (by decide) (by decide) (by decide)]
  rw [parseAfterAuthority_user _ _ _ _ _ (key_authSafe pk) (ip_authSafe ip hcol)
    (ip_ne_nil ip) (spanAuth_api zt)]
  simp only [spanPath_api, parseQF_api]
  unfold tryFromUrl
  rw [if_neg (by simp), if_neg (by simp), if_neg (by simp), if_neg (by simp),
    if_pos rfl]
  rw [zmqRole_mk_apiname]
  simp only [parseIpAddr_val, parsePubkey_val]

theorem from_str_zmq_unenc (zt : ApiType) (ip : IpAddr) (prt : Option Port)
    (hcol : ':' ∉ ip.val) :
    from_str (NodeLocator.to_url_string (.ZmqTcpUnencrypted zt ip prt)) =
      .ok (.ZmqTcpUnencrypted (roleRT zt) ip prt) := by
  have hshape : NodeLocator.to_url_string (.ZmqTcpUnencrypted zt ip prt) =
      "lnpz".data ++ ':' :: '/' :: '/' ::
        (ip.val ++ (portSuffix prt ++
          ('/' :: '?' :: 'a' :: 'p' :: 'i' :: '=' :: zt.api_name))) := by
    simp [NodeLocator.to_url_string, NodeLocator.url_scheme, List.append_assoc]
  rw [from_str, hshape, normalizeInput_lnpz, parseUrlChars]
  rw [urlParse_scheme_auth _ _ (by decide) (by decide) (by decide)]
  rw [parseAfterAuthority_nouser _ _ _ _ (ip_authSafe ip hcol) (ip_ne_nil ip)
    (spanAuth_api zt)]
  simp only [spanPath_api, parseQF_api]
  unfold tryFromUrl
  rw [if_neg (by simp), if_neg (by simp), if_neg (by simp), if_neg (by simp),
    if_pos rfl]
  rw [zmqRole_mk_apiname]
  simp only [parseIpAddr_val, parsePubkey_nil]
  rfl

theorem from_str_zmq_ipc (path : List Char) (zt : ApiType)
    (hne : path ≠ []) (hmem : ∀ c ∈ path, c ∈ pathChars)
    (h2 : path.take 2 ≠ "//".data) :
    from_str (NodeLocator.to_url_string (.ZmqIpc path zt)) =
      .ok (.ZmqIpc path (roleRT zt)) := by
  have hshape : NodeLocator.to_url_string (.ZmqIpc path zt) =
      "lnpz".data ++ ':' ::
        (path ++ ('?' :: 'a' :: 'p' :: 'i' :: '=' :: zt.api_name)) := by
    simp [NodeLocator.to_url_string, NodeLocator.url_scheme, List.append_assoc]
  rw [from_str, hshape, normalizeInput_lnpz, parseUrlChars]
  rw [urlParse_plain _ _ (by decide) (by decide) (by decide)
    (take2_append_ne path '?' _ hne h2 (by decide))]
  have hps : spanUntil stopPath
      (path ++ ('?' :: 'a' :: 'p' :: 'i' :: '=' :: zt.api_name)) =
      (path, '?' :: 'a' :: 'p' :: 'i' :: '=' :: zt.api_name) := by
    rw [spanUntil_append _ (fun c hc => pathChars_stopPath c (hmem c hc))]
    rw [spanUntil_stop _ (by decide)]
    simp
  simp only [hps, parseQF_api]
  unfold tryFromUrl
  rw [if_neg (by simp), if_neg (by simp), if_neg (by simp), if_neg (by simp),
    if_pos rfl]
  rw [zmqRole_mk_apiname]
  simp only [parsePubkey_nil]
  rw [if_pos (show ([] : List Char).isEmpty = true from rfl),
    if_neg (by simpa [List.isEmpty_iff] using hne)]

/-! ## Equality, canonicalization and hashing lemmas -/

theorem api_eq_canonRole (r r2 : ApiType) :
    (api_eq r r2 = true) ↔ canonRole r = canonRole r2 := by
  cases r <;> cases r2 <;> decide

theorem api_eq_roleRT {zt : ApiType} (h : zt ≠ .Server) :
    api_eq zt (roleRT zt) = true := by
  cases zt <;> first | rfl | exact absurd rfl h

theorem locatorEq_canon : ∀ {a b : NodeLocator}, locatorEq a b = true →
    canonLocator a = canonLocator b := by
  intro a b h
  cases a <;> cases b <;>
    simp_all [locatorEq, canonLocator, api_eq_canonRole]

theorem apiName_canonRole (zt : ApiType) :
    (canonRole zt).api_name = zt.api_name := by
  cases zt <;> rfl

theorem to_url_canon (a : NodeLocator) :
    (canonLocator a).to_url_string = a.to_url_string := by
  cases a <;>
    simp [canonLocator, NodeLocator.to_url_string, NodeLocator.url_scheme,
      apiName_canonRole]

/-- Domain of the amended round-trip law: every constructible locator
except the in-process queue form, the POSIX form, queue locators with the
reply-server role, queue IPC paths that are empty or not URL-safe, and
locators whose address literal contains a colon (an unbracketed IPv6
authority, which the URL parser rejects). -/
def rtOk : NodeLocator → Bool
  | .Posix _ => false
  | .ZmqInproc _ _ => false
  | .Native _ inet _ => !(decide (':' ∈ inet.val))
  | .Udp _ ip _ => !(decide (':' ∈ ip.val))
  | .Http _ inet _ => !(decide (':' ∈ inet.val))
  | .Websocket _ inet _ => !(decide (':' ∈ inet.val))
  | .ZmqIpc path zt =>
      !(decide (zt = .Server)) && !path.isEmpty &&
        path.all (fun c => decide (c ∈ pathChars)) &&
        !(decide (path.take 2 = "//".data))
  | .ZmqTcpEncrypted _ zt ip _ =>
      !(decide (zt = .Server)) && !(decide (':' ∈ ip.val))
  | .ZmqTcpUnencrypted zt ip _ =>
      !(decide (zt = .Server)) && !(decide (':' ∈ ip.val))
  | .Text _ => true

/-! ## Sample values used by witnesses and counterexamples -/

/-- Sample compressed public key (the one used by the source test suite). -/
def pkSample : PublicKey :=
  ⟨"022e58afe51f9ed8ad3cc7897f634d881fdbe49a81564629ded8156bebd2ffd1af".data,
    by decide⟩

/-- Sample raw IP literal. -/
def ipSample : IpAddr := ⟨"127.0.0.1".data, by decide⟩

/-- Sample network address. -/
def inetSample : InetAddr := ⟨"127.0.0.1".data, by decide⟩

/-- Well-formed lnpt URL of the node-id@host form. -/
def urlT : Url :=
  ⟨"lnpt".data,
    "022e58afe51f9ed8ad3cc7897f634d881fdbe49a81564629ded8156bebd2ffd1af".data,
    some "127.0.0.1".data, none, [], none, none⟩

/-- Well-formed lnpz URL whose user info is not a valid node id. -/
def urlZbadUser : Url :=
  ⟨"lnpz".data, "xyz".data, some "1.2.3.4".data, none, "/".data,
    some "api=p2p".data, none⟩

/-- URL with an unrecognized scheme token. -/
def urlHttp : Url :=
  ⟨"http".data, [], some "example.com".data, none, "/".data, none, none⟩

/-- Well-formed lnpz URL carrying an api role and a host. -/
def urlZp2p : Url :=
  ⟨"lnpz".data, [], some "1.2.3.4".data, none, "/".data,
    some "api=p2p".data, none⟩

/-! ## Claim theorems -/

/-- C1 (amended): parsing the string produced by serialization yields a
locator equal to the original, for every constructible variant in the
`rtOk` domain: all variants except QueueInproc (ZmqInproc), except
LocalSocket (Posix) — which no parser branch ever produces — and except
queue variants whose role is reply-server, queue IPC paths that are empty
or not URL-safe, and address literals containing a colon (unbracketed
IPv6 authorities, which the URL parser rejects as MalformedUrl). -/
theorem C1_round_trip_amended :
    ∀ v : NodeLocator, rtOk v = true → reparses v = true := by
  intro v hv
  cases v with
  | Native pk inet prt =>
      simp only [rtOk, Bool.not_eq_true', decide_eq_false_iff_not] at hv
      unfold reparses
      rw [from_str_native pk inet prt hv]
      simp [locatorEq]
  | Udp pk ip prt =>
      simp only [rtOk, Bool.not_eq_true', decide_eq_false_iff_not] at hv
      unfold reparses
      rw [from_str_udp pk ip prt hv]
      simp [locatorEq]
  | Posix path => simp [rtOk] at hv
  | ZmqIpc path zt =>
      simp only [rtOk, Bool.and_eq_true, Bool.not_eq_true',
        decide_eq_false_iff_not, List.all_eq_true, decide_eq_true_eq] at hv
      obtain ⟨⟨⟨hzt, hne⟩, hmem⟩, h2⟩ := hv
      unfold reparses
      rw [from_str_zmq_ipc path zt (by simpa [List.isEmpty_iff] using hne)
        hmem h2]
      simp [locatorEq, api_eq_roleRT hzt]
  | ZmqInproc name zt => simp [rtOk] at hv
  | ZmqTcpEncrypted pk zt ip prt =>
      simp only [rtOk, Bool.and_eq_true, Bool.not_eq_true',
        decide_eq_false_iff_not] at hv
      unfold reparses
      rw [from_str_zmq_enc pk zt ip prt hv.2]
      simp [locatorEq, api_eq_roleRT hv.1]
  | ZmqTcpUnencrypted zt ip prt =>
      simp only [rtOk, Bool.and_eq_true, Bool.not_eq_true',
        decide_eq_false_iff_not] at hv
      unfold reparses
      rw [from_str_zmq_unenc zt ip prt hv.2]
      simp [locatorEq, api_eq_roleRT hv.1]
  | Http pk inet prt =>
      simp only [rtOk, Bool.not_eq_true', decide_eq_false_iff_not] at hv
      unfold reparses
      rw [from_str_http pk inet prt hv]
      simp [locatorEq]
  | Websocket pk inet prt =>
      simp only [rtOk, Bool.not_eq_true', decide_eq_false_iff_not] at hv
      unfold reparses
      rw [from_str_websocket pk inet prt hv]
      simp [locatorEq]
  | Text pk =>
      unfold reparses
      rw [from_str_text]
      simp [locatorEq]

/-- Sample unbracketed IPv6 literal. -/
def ipV6 : IpAddr := ⟨"::1".data, by decide⟩

/-- C1 counterexample: the claim as stated fails on the code.  A
LocalSocket (Posix) locator serializes to `lnp:<path>` but parsing that
string fails with InvalidPubkey (no parser branch produces Posix); a
QueueIpc locator with the reply-server role serializes its role as `rpc`
and reparses as request-client, which the locator equality rejects; a
QueueIpc locator with an empty path reparses as InprocRequireZmqContext;
and an IPv6 locator serializes to an unbracketed-colon authority which the
URL parser rejects, so parsing fails with MalformedUrl. -/
theorem C1_round_trip_counterexample :
    from_str (NodeLocator.to_url_string (.Posix "/tmp/socket".data)) =
      .error .InvalidPubkey ∧
    from_str (NodeLocator.to_url_string (.ZmqIpc "./socket1".data .Server)) =
      .ok (.ZmqIpc "./socket1".data .Client) ∧
    locatorEq (.ZmqIpc "./socket1".data .Server)
      (.ZmqIpc "./socket1".data .Client) = false ∧
    from_str (NodeLocator.to_url_string (.ZmqIpc [] .Client)) =
      .error .InprocRequireZmqContext ∧
    from_str (NodeLocator.to_url_string (.Udp pkSample ipV6 none)) =
      .error .MalformedUrl ∧
    from_str (NodeLocator.to_url_string
      (.ZmqTcpUnencrypted .Client ipV6 none)) = .error .MalformedUrl :=
  ⟨by decide, by decide, by decide, by decide, by decide, by decide⟩

/-- C1 witness: the amended round-trip law evaluated on a concrete Native
locator. -/
theorem C1_round_trip_witness :
    reparses (.Native pkSample inetSample none) = true :=
  C1_round_trip_amended _ (by decide)

/-- C3 (code bug): the custom equality is claimed to equate locators of the
same variant whose fields agree (with the role merge), but the source
`PartialEq` impl has no arm for the Posix variant, so the catch-all arm
makes every Posix locator unequal even to an identical copy — contradicting
the reflexivity contract asserted by the accompanying `impl Eq`. -/
theorem C3_posix_eq_bug :
    ∀ path : List Char, locatorEq (.Posix path) (.Posix path) = false :=
  fun _ => rfl

/-- C4: hashing is consistent with the locator equality: equal locators
serialize to the same URL string, which is exactly the byte stream the
`Hash` impl feeds to the hasher; this covers the listening/connecting
role-merge case since both roles serialize as `p2p`. -/
theorem C4_hash_consistency :
    ∀ a b : NodeLocator, locatorEq a b = true →
      locatorHashBytes a = locatorHashBytes b := by
  intro a b h
  have hc := locatorEq_canon h
  unfold locatorHashBytes
  rw [← to_url_canon a, ← to_url_canon b, hc]

/-- C4 witness: hash consistency evaluated across the listening/connecting
role merge on concrete QueueTcpSecure locators. -/
theorem C4_hash_consistency_witness :
    locatorEq (.ZmqTcpEncrypted pkSample .PeerListening ipSample none)
      (.ZmqTcpEncrypted pkSample .PeerConnecting ipSample none) = true ∧
    locatorHashBytes (.ZmqTcpEncrypted pkSample .PeerListening ipSample none) =
      locatorHashBytes (.ZmqTcpEncrypted pkSample .PeerConnecting ipSample none) :=
  ⟨by decide, C4_hash_consistency _ _ (by decide)⟩

/-- C5: with_port sets the port field to Some(p) on the six port-slot
variants, is the identity on the four others, and is idempotent. -/
theorem C5_with_port :
    (∀ pk a q p, (NodeLocator.Native pk a q).with_port p = .Native pk a (some p)) ∧
    (∀ pk i q p, (NodeLocator.Udp pk i q).with_port p = .Udp pk i (some p)) ∧
    (∀ pk zt i q p, (NodeLocator.ZmqTcpEncrypted pk zt i q).with_port p =
      .ZmqTcpEncrypted pk zt i (some p)) ∧
    (∀ zt i q p, (NodeLocator.ZmqTcpUnencrypted zt i q).with_port p =
      .ZmqTcpUnencrypted zt i (some p)) ∧
    (∀ pk a q p, (NodeLocator.Http pk a q).with_port p = .Http pk a (some p)) ∧
    (∀ pk a q p, (NodeLocator.Websocket pk a q).with_port p =
      .Websocket pk a (some p)) ∧
    (∀ path p, (NodeLocator.Posix path).with_port p = .Posix path) ∧
    (∀ path zt p, (NodeLocator.ZmqIpc path zt).with_port p = .ZmqIpc path zt) ∧
    (∀ name zt p, (NodeLocator.ZmqInproc name zt).with_port p =
      .ZmqInproc name zt) ∧
    (∀ pk p, (NodeLocator.Text pk).with_port p = .Text pk) ∧
    (∀ (l : NodeLocator) p, (l.with_port p).with_port p = l.with_port p) := by
  refine ⟨fun _ _ _ _ => rfl, fun _ _ _ _ => rfl, fun _ _ _ _ _ => rfl,
    fun _ _ _ _ => rfl, fun _ _ _ _ => rfl, fun _ _ _ _ => rfl,
    fun _ _ => rfl, fun _ _ _ => rfl, fun _ _ _ => rfl, fun _ _ => rfl,
    fun l p => ?_⟩
  cases l <;> rfl

/-- C6: conversion to a local address succeeds exactly for LocalSocket,
QueueIpc, QueueInproc and QueueTcpPlain with a concrete port; every other
locator fails with UnsupportedForLocalAddr. -/
theorem C6_local_addr :
    (∀ path, LocalAddr.try_from (.Posix path) = .ok (.Posix path)) ∧
    (∀ path zt, LocalAddr.try_from (.ZmqIpc path zt) = .ok (.Zmq (.Ipc path))) ∧
    (∀ name zt, LocalAddr.try_from (.ZmqInproc name zt) =
      .ok (.Zmq (.Inproc name))) ∧
    (∀ zt ip p, LocalAddr.try_from (.ZmqTcpUnencrypted zt ip (some p)) =
      .ok (.Zmq (.Tcp ip p))) ∧
    (∀ zt ip, LocalAddr.try_from (.ZmqTcpUnencrypted zt ip none) =
      .error .UnsupportedForLocalAddr) ∧
    (∀ pk a q, LocalAddr.try_from (.Native pk a q) =
      .error .UnsupportedForLocalAddr) ∧
    (∀ pk i q, LocalAddr.try_from (.Udp pk i q) =
      .error .UnsupportedForLocalAddr) ∧
    (∀ pk zt i q, LocalAddr.try_from (.ZmqTcpEncrypted pk zt i q) =
      .error .UnsupportedForLocalAddr) ∧
    (∀ pk a q, LocalAddr.try_from (.Http pk a q) =
      .error .UnsupportedForLocalAddr) ∧
    (∀ pk a q, LocalAddr.try_from (.Websocket pk a q) =
      .error .UnsupportedForLocalAddr) ∧
    (∀ pk, LocalAddr.try_from (.Text pk) = .error .UnsupportedForLocalAddr) :=
  ⟨fun _ => rfl, fun _ _ => rfl, fun _ _ => rfl, fun _ _ _ => rfl,
    fun _ _ => rfl, fun _ _ _ => rfl, fun _ _ _ => rfl, fun _ _ _ _ => rfl,
    fun _ _ _ => rfl, fun _ _ _ => rfl, fun _ => rfl⟩

/-- C10: the TextToken variant has neither an internet address nor a socket
name, so the alternate-mode Display formatter reaches its assertion-failure
(panic) path, modelled as `displayAlt` returning none. -/
theorem C10_text_display_panic :
    ∀ pk : PublicKey, NodeLocator.inet_addr (.Text pk) = none ∧
      NodeLocator.socket_name (.Text pk) = none ∧
      displayAlt (.Text pk) = none :=
  fun _ => ⟨rfl, rfl, rfl⟩

/-- C7: parsing an lnpt URL takes the node id from the host field and
forbids the node-id@host form and ports: a username that parses as a key
fails with HostPresent, and otherwise a present port fails with
PortPresent; concretely, `lnpt://<node-id>@127.0.0.1` fails with
HostPresent and `lnpt://<node-id>:1323` fails with PortPresent. -/
theorem C7_lnpt_errors :
    (∀ u : Url, u.scheme = "lnpt".data →
      ((∃ pk, parsePubkey u.username = some pk) →
        tryFromUrl u = .error .HostPresent) ∧
      (parsePubkey u.username = none → u.port.isSome = true →
        tryFromUrl u = .error .PortPresent)) ∧
    from_str "lnpt://022e58afe51f9ed8ad3cc7897f634d881fdbe49a81564629ded8156bebd2ffd1af@127.0.0.1".data
      = .error .HostPresent ∧
    from_str "lnpt://022e58afe51f9ed8ad3cc7897f634d881fdbe49a81564629ded8156bebd2ffd1af:1323".data
      = .error .PortPresent := by
  refine ⟨?_, by decide, by decide⟩
  intro u hs
  constructor
  · rintro ⟨pk, hpk⟩
    unfold tryFromUrl
    rw [hs]
    rw [if_neg (by decide), if_neg (by decide), if_neg (by decide),
      if_neg (by decide), if_neg (by decide), if_pos rfl, hpk]
  · intro hpk hport
    unfold tryFromUrl
    rw [hs]
    rw [if_neg (by decide), if_neg (by decide), if_neg (by decide),
      if_neg (by decide), if_neg (by decide), if_pos rfl, hpk]
    obtain ⟨p, hp⟩ := Option.isSome_iff_exists.mp hport
    rw [hp]

/-- C7 witness: the universal part applied to a concrete well-formed lnpt
URL of the node-id@host form. -/
theorem C7_lnpt_errors_witness :
    tryFromUrl urlT = .error .HostPresent :=
  ((C7_lnpt_errors.1 urlT rfl).1 ⟨pkSample, by decide⟩)

/-- C8: on lnpz URLs a missing api query parameter fails with
ApiTypeRequired; an unrecognized token fails with InvalidZmqType carrying
the (lower-cased) token; recognized tokens are matched case-insensitively
and map p2p to the connecting peer role, rpc to request-client, sub to
subscriber and esb to service-bus.  Concretely `lnpz://1.2.3.4` fails with
ApiTypeRequired and `api=xyz` fails with InvalidZmqType("xyz"). -/
theorem C8_api_param :
    (∀ u : Url, u.scheme = "lnpz".data →
      (apiQuery u = none → tryFromUrl u = .error .ApiTypeRequired) ∧
      (∀ t, apiQuery u = some t →
        toLowerChars t ≠ "p2p".data → toLowerChars t ≠ "rpc".data →
        toLowerChars t ≠ "sub".data → toLowerChars t ≠ "esb".data →
        tryFromUrl u = .error (.InvalidZmqType (toLowerChars t))) ∧
      (∀ t, apiQuery u = some t → toLowerChars t = "p2p".data →
        zmqRole u = .ok .PeerConnecting) ∧
      (∀ t, apiQuery u = some t → toLowerChars t = "rpc".data →
        zmqRole u = .ok .Client) ∧
      (∀ t, apiQuery u = some t → toLowerChars t = "sub".data →
        zmqRole u = .ok .Subscribe) ∧
      (∀ t, apiQuery u = some t → toLowerChars t = "esb".data →
        zmqRole u = .ok .EsbService)) ∧
    from_str "lnpz://1.2.3.4".data = .error .ApiTypeRequired ∧
    from_str "lnpz://1.2.3.4/?api=xyz".data =
      .error (.InvalidZmqType "xyz".data) := by
  refine ⟨?_, by decide, by decide⟩
  intro u hs
  have hz : ∀ e, zmqRole u = .error e → tryFromUrl u = .error e := by
    intro e he
    unfold tryFromUrl
    rw [hs]
    rw [if_neg (by decide), if_neg (by decide), if_neg (by decide),
      if_neg (by decide), if_pos rfl, he]
  refine ⟨?_, ?_, ?_, ?_, ?_, ?_⟩
  · intro hq
    refine hz _ ?_
    unfold zmqRole
    rw [hq]
  · intro t hq h1 h2 h3 h4
    refine hz _ ?_
    simp only [zmqRole, hq]
    rw [if_neg h1, if_neg h2, if_neg h3, if_neg h4]
  · intro t hq ht
    simp only [zmqRole, hq]
    rw [if_pos ht]
  · intro t hq ht
    simp only [zmqRole, hq]
    rw [ht]
    rfl
  · intro t hq ht
    simp only [zmqRole, hq]
    rw [ht]
    rfl
  · intro t hq ht
    simp only [zmqRole, hq]
    rw [ht]
    rfl

/-- C8 witness: the missing-api case applied to a concrete lnpz URL. -/
theorem C8_api_param_witness :
    tryFromUrl ⟨"lnpz".data, [], some "1.2.3.4".data, none, [], none, none⟩ =
      .error .ApiTypeRequired :=
  (C8_api_param.1 _ rfl).1 rfl

/-- C9: a URL whose scheme token is none of the six recognized schemes is
rejected by the URL-to-locator conversion with UnknownUrlScheme carrying
that token, while a bare input string without a recognized scheme marker is
parsed as if prefixed with `lnp://`. -/
theorem C9_unknown_scheme :
    (∀ u : Url, u.scheme ≠ "lnp".data → u.scheme ≠ "lnpu".data →
      u.scheme ≠ "lnph".data → u.scheme ≠ "lnpws".data →
      u.scheme ≠ "lnpz".data → u.scheme ≠ "lnpt".data →
      tryFromUrl u = .error (.UnknownUrlScheme u.scheme)) ∧
    (∀ s : List Char, (knownSchemes.any fun p => p.isPrefixOf s) = false →
      from_str s = parseUrlChars ("lnp://".data ++ s)) := by
  constructor
  · intro u h1 h2 h3 h4 h5 h6
    unfold tryFromUrl
    rw [if_neg h1, if_neg h2, if_neg h3, if_neg h4, if_neg h5, if_neg h6]
  · intro s hs
    unfold from_str normalizeInput
    rw [if_neg (by simp [hs])]

/-- C9 witness: the unknown-scheme rejection applied to an `http` URL. -/
theorem C9_unknown_scheme_witness :
    tryFromUrl urlHttp = .error (.UnknownUrlScheme "http".data) :=
  C9_unknown_scheme.1 urlHttp (by decide) (by decide) (by decide) (by decide)
    (by decide) (by decide)

/-- Sample raw IP literal used in the lnpz examples. -/
def ipSample2 : IpAddr := ⟨"1.2.3.4".data, by decide⟩

/-- C2 (amended): on a well-formed lnpz URL carrying a valid api role, a
valid-IP host with a username parsing as a node id yields QueueTcpSecure; a
valid-IP host with an empty username yields QueueTcpPlain; a host that
fails to parse as an IP yields InvalidIp; a non-empty username that does
not parse as a node id also yields InvalidIp; with no host, a non-empty
path yields QueueIpc and an empty path yields InprocRequireZmqContext. -/
theorem C2_lnpz_dispatch_amended :
    ∀ u : Url, (u.username ≠ [] → u.host.isSome = true) →
      u.scheme = "lnpz".data → ∀ r, zmqRole u = .ok r →
      (∀ h ip pk, u.host = some h → parseIpAddr h = some ip →
        parsePubkey u.username = some pk →
        tryFromUrl u = .ok (.ZmqTcpEncrypted pk r ip u.port)) ∧
      (∀ h ip, u.host = some h → parseIpAddr h = some ip → u.username = [] →
        tryFromUrl u = .ok (.ZmqTcpUnencrypted r ip u.port)) ∧
      (∀ h, u.host = some h → parseIpAddr h = none →
        tryFromUrl u = .error .InvalidIp) ∧
      (parsePubkey u.username = none → u.username ≠ [] →
        tryFromUrl u = .error .InvalidIp) ∧
      (u.host = none → u.path ≠ [] → tryFromUrl u = .ok (.ZmqIpc u.path r)) ∧
      (u.host = none → u.path = [] →
        tryFromUrl u = .error .InprocRequireZmqContext) := by
  intro u hw hs r hr
  have hopen : tryFromUrl u = (match u.host with
      | some h =>
          match parseIpAddr h with
          | none => .error .InvalidIp
          | some i =>
              match parsePubkey u.username with
              | some pk => .ok (.ZmqTcpEncrypted pk r i u.port)
              | none =>
                  if u.username.isEmpty then
                    .ok (.ZmqTcpUnencrypted r i u.port)
                  else .error .InvalidIp
      | none =>
          match parsePubkey u.username with
          | some _ =>
              if u.path.isEmpty then .error .InprocRequireZmqContext
              else .ok (.ZmqIpc u.path r)
          | none =>
              if u.username.isEmpty then
                if u.path.isEmpty then .error .InprocRequireZmqContext
                else .ok (.ZmqIpc u.path r)
              else .error .InvalidIp) := by
    unfold tryFromUrl
    rw [hs]
    rw [if_neg (by decide), if_neg (by decide), if_neg (by decide),
      if_neg (by decide), if_pos rfl, hr]
  refine ⟨?_, ?_, ?_, ?_, ?_, ?_⟩
  · intro h ip pk hh hip hpk
    rw [hopen, hh]
    simp only [hip, hpk]
  · intro h ip hh hip hu
    rw [hopen, hh]
    simp only [hip, hu, parsePubkey_nil, List.isEmpty_nil, if_true]
  · intro h hh hip
    rw [hopen, hh]
    simp only [hip]
  · intro hpk hne
    cases hh : u.host with
    | some h =>
        rw [hopen, hh]
        cases hip : parseIpAddr h with
        | none => simp only [hip]
        | some i =>
            simp only [hip, hpk]
            rw [if_neg (by simpa [List.isEmpty_iff] using hne)]
    | none => exact absurd (hw hne) (by simp [hh])
  · intro hh hpath
    have hu : u.username = [] := by
      by_cases h0 : u.username = []
      · exact h0
      · have h1 := hw h0
        rw [hh] at h1
        simp at h1
    rw [hopen, hh]
    simp only [hu, parsePubkey_nil, List.isEmpty_nil, if_true]
    rw [if_neg (by simpa [List.isEmpty_iff] using hpath)]
  · intro hh hpath
    have hu : u.username = [] := by
      by_cases h0 : u.username = []
      · exact h0
      · have h1 := hw h0
        rw [hh] at h1
        simp at h1
    rw [hopen, hh]
    simp only [hu, hpath, parsePubkey_nil, List.isEmpty_nil, if_true]

/-- C2 counterexample: the claim as stated fails on the code: on
`lnpz://xyz@1.2.3.4/?api=p2p` — a host present and parsing as a valid IP,
but no usable node id (`xyz` is not a key) — the claim demands
QueueTcpPlain, while the code fails with InvalidIp because the user info is
non-empty. -/
theorem C2_lnpz_dispatch_counterexample :
    urlZbadUser.username ≠ [] ∧ urlZbadUser.host = some "1.2.3.4".data ∧
    parseIpAddr "1.2.3.4".data = some ipSample2 ∧
    parsePubkey urlZbadUser.username = none ∧
    zmqRole urlZbadUser = .ok .PeerConnecting ∧
    tryFromUrl urlZbadUser = .error .InvalidIp :=
  ⟨by decide, by decide, by decide, by decide, by decide, by decide⟩

/-- C2 witness: the QueueTcpPlain case of the amended dispatch applied to
the concrete URL `lnpz://1.2.3.4/?api=p2p`. -/
theorem C2_lnpz_dispatch_witness :
    tryFromUrl urlZp2p = .ok (.ZmqTcpUnencrypted .PeerConnecting ipSample2 none) :=
  (C2_lnpz_dispatch_amended urlZp2p (fun h => absurd rfl h) rfl
    .PeerConnecting (by decide)).2.1 "1.2.3.4".data ipSample2 rfl (by decide) rfl

end Internet2
